import Mathlib

/-!
Verification of the `soap` package (files `soap.go`, `element.go`): a SOAP 1.1
"multiRef" flattener.  The package parses an XML byte buffer into a sequence of
elements, builds an id → element reference index, and rewrites `href="#id"`
placeholders with the referenced element's content.

Embedding notes.  The Go code drives `encoding/xml.Decoder.RawToken` (an
external standard-library tokenizer) and re-serializes elements through the
fixed `text/template` value `xmlTmpl`.  We embed the code at the token level:

* an input document is a `List Token` (the stream `RawToken` would yield for
  the input bytes: start tags with their attribute lists, end tags, character
  data, and a catch-all `other` for comments / processing instructions /
  directives, which the Go code skips via `default: continue`);
* an element's `Data []byte` field (raw inner XML produced by writing the
  `StartTag`/`EndTag` templates and `xml.EscapeText`-ed character data into a
  buffer) is represented by the corresponding token list, and
  `elements(el.Data)` is modeled by running the embedded parser on the
  stored token list.

Serialization caveat.  Template serialization followed by re-tokenization is
the identity for tag structure (a self-closing `EmptyTag` `<n a />` is
delivered by `RawToken` as a start token followed by an end token) and for
character data (`xml.EscapeText` is undone by the tokenizer), but NOT in
general for attribute values: the `Attr` template writes `"{{.Value}}"`
verbatim, with no escaping, while the tokenizer unescapes entities and
rejects an unescaped `"` or `<` inside a quoted value and normalizes
carriage returns.  A value that contains `"`, `&`, `<` or a carriage return
(all reachable from real input through entity references or single-quoted
attributes, e.g. `x='"'` stores the one-character value `"`) therefore
serializes to bytes that fail to re-tokenize — and the Go `Children` method
then silently discards that parse error.  The token model of `Data` erases
this byte-level failure: it is exact precisely on content whose attribute
values satisfy `valueSerializable` below.  Universal theorems that depend on
the round trip carry that restriction, and the counterexamples for claims
C7 and C9 exhibit the discarded-error behavior on an element whose stored
content fails to re-parse.

Partial functions are embedded with explicit fuel: `flattenXML` (flagged by
the source's own `BUG(droyo)` comment as unboundedly recursive on reference
loops) and `walkMultiRef` recurse through `Children`, which re-parses stored
content, so they take a fuel argument and report `unboundedRecursion` when it
runs out.  `Flatten buildMRef walkMultiRef flattenXML` all take the fuel;
a run that fails with `unboundedRecursion` at every fuel models
non-termination of the Go original.  The token-stream parser `elementData` /
`elementsAux` also carries fuel for termination of the Lean definition; the
wrapper `elements` supplies `length + 1`, which is always sufficient (each
recursive call consumes fuel in step with the token list, as the canonical
parse lemmas below make precise).
-/

/-- `encoding/xml.Name`: a qualified XML name.  `RawToken` performs no
namespace resolution, so `Space` is the literal prefix text. -/
structure XmlName where
  Space : String
  Local : String
deriving DecidableEq, Repr

/-- `encoding/xml.Attr`: one attribute, name plus string value. -/
structure XmlAttr where
  Name : XmlName
  Value : String
deriving DecidableEq, Repr

/-- One raw token of the external tokenizer (`Decoder.RawToken`):
start element, end element, character data, or anything else (comments,
processing instructions, directives), which the source skips. -/
inductive Token where
  | start (name : XmlName) (attrs : List XmlAttr)
  | stop (name : XmlName)
  | chardata (s : String)
  | other
deriving DecidableEq, Repr

/-- `element` from `element.go`: an embedded `xml.StartElement` (name and
attribute list) plus the raw inner markup `Data`, kept here as the token list
that the stored bytes tokenize to. -/
structure element where
  Name : XmlName
  Attr : List XmlAttr
  Data : List Token
deriving DecidableEq, Repr

/-- Error text standing in for a computation that would not have returned in
the Go original (fuel exhaustion of the embedded recursion). -/
def unboundedRecursion : String := "unbounded recursion"

/-- `io.EOF`: the tokenizer ran dry while an element was still open. -/
def eofError : String := "EOF"

/-- `elementData` (element.go): consume tokens up to and including the end tag
matching `sn`, returning the accumulated inner markup and the remaining
stream.  Nested start tags re-emit their `StartTag`/`EndTag` markup around the
recursively accumulated content; character data is written (escaped) as is;
an end tag with any other name is the well-formedness error
`Unexpected end element`; `other` tokens are skipped (`default: continue`);
running out of tokens returns `io.EOF` to the caller.  The accumulated
markup is kept as the token list it was written from; per the serialization
caveat above, the bytes the template actually writes re-tokenize to exactly
these tokens only when every attribute value is serializable — otherwise
the Go re-parse of the stored bytes fails, an error path this token-level
`Data` cannot reproduce directly (the C7/C9 counterexamples reproduce it
through stored content that fails to parse for structural reasons). -/
def elementData : Nat → XmlName → List Token → Except String (List Token × List Token)
  | 0, _, _ => .error unboundedRecursion
  | _ + 1, _, [] => .error eofError
  | fuel + 1, sn, t :: ts =>
    match t with
    | .start n a =>
      match elementData fuel n ts with
      | .error e => .error e
      | .ok (inner, rest) =>
        match elementData fuel sn rest with
        | .error e => .error e
        | .ok (tail, rest') => .ok (.start n a :: (inner ++ .stop n :: tail), rest')
    | .chardata s =>
      match elementData fuel sn ts with
      | .error e => .error e
      | .ok (tail, rest) => .ok (.chardata s :: tail, rest)
    | .stop n => if n = sn then .ok ([], ts) else .error ("Unexpected end element " ++ n.Local)
    | .other => elementData fuel sn ts

/-- Loop body of `elements` (element.go): scan the stream; each top-level
start tag becomes an `element` whose `Data` is gathered by `elementData`;
every other top-level token is ignored (the Go loop only reacts to
`xml.StartElement`); end of stream is the normal exit. -/
def elementsAux : Nat → List Token → Except String (List element)
  | 0, _ => .error unboundedRecursion
  | _ + 1, [] => .ok []
  | fuel + 1, t :: ts =>
    match t with
    | .start n a =>
      match elementData fuel n ts with
      | .error e => .error e
      | .ok (content, rest) =>
        match elementsAux fuel rest with
        | .error e => .error e
        | .ok els => .ok (⟨n, a, content⟩ :: els)
    | .stop _ => elementsAux fuel ts
    | .chardata _ => elementsAux fuel ts
    | .other => elementsAux fuel ts

/-- `elements` (element.go): parse a buffer into its top-level elements.
The fuel `length + 1` is always enough: every recursive call inside
`elementsAux`/`elementData` consumes fuel no faster than it consumes the
token list. -/
def elements (ts : List Token) : Except String (List element) :=
  elementsAux (ts.length + 1) ts

/-- `element.Children` (element.go): re-parse the stored content; note the Go
code discards the error and returns `nil` on a parse failure. -/
def Children (el : element) : List element :=
  match elements el.Data with
  | .error _ => []
  | .ok els => els

/-- `findAttr` (element.go): first attribute with the given local name; an
empty `space` argument matches any namespace. -/
def findAttr : List XmlAttr → String → String → Option XmlAttr
  | [], _, _ => none
  | v :: rest, space, name =>
    if v.Name.Local = name ∧ (space = "" ∨ space = v.Name.Space) then some v
    else findAttr rest space name

/-- `findHref` (element.go): the target id of an `href` attribute.  The Go
test `len(attr.Value) > 1 && attr.Value[0] == '#'` (value longer than one
byte and beginning with `#`) is rendered on the character list; on success
the result is `attr.Value[1:]`. -/
def findHref (list : List XmlAttr) : Option String :=
  match findAttr list "" "href" with
  | some attr =>
    match attr.Value.data with
    | '#' :: c :: cs => some ⟨c :: cs⟩
    | _ => none
  | none => none

/-- `findId` (element.go): the value of an `id` attribute, if present. -/
def findId (list : List XmlAttr) : Option String :=
  match findAttr list "" "id" with
  | some attr => some attr.Value
  | none => none

/-- The Go `map[string]element` written by `mref[id] = root`: modeled as an
association list where an insert prepends, so `List.lookup` (first match)
returns the most recent write — map semantics. -/
abbrev Mref := List (String × element)

/-- The `for _, el := range …` walk loop shared by `walkMultiRef` (over
`root.Children()`) and `buildMRef` (over the top-level elements): run the
walk on each element in turn, threading the index, aborting on the first
error. -/
def walkAccum : (element → Mref → Except String Mref) → List element → Mref → Except String Mref
  | _, [], mref => .ok mref
  | w, el :: els, mref =>
    match w el mref with
    | .error e => .error e
    | .ok mref' => walkAccum w els mref'

/-- `walkMultiRef` (element.go): record `id → element` for the whole subtree,
children first (the `for` loop over `root.Children()`), then the element
itself (`mref[id] = root`).  The Go function has an `error` result but can
only forward errors of recursive calls, which never produce one; the fuel-out
case is the embedding's only error. -/
def walkMultiRef : Nat → element → Mref → Except String Mref
  | 0, _, _ => .error unboundedRecursion
  | fuel + 1, root, mref =>
    match walkAccum (walkMultiRef fuel) (Children root) mref with
    | .error e => .error e
    | .ok mref' =>
      match findId root.Attr with
      | some id => .ok ((id, root) :: mref')
      | none => .ok mref'

/-- `buildMRef` (element.go): parse the document and walk every top-level
element, accumulating the reference index (initially empty). -/
def buildMRef (fuel : Nat) (data : List Token) : Except String Mref :=
  match elements data with
  | .error e => .error e
  | .ok elem => walkAccum (walkMultiRef fuel) elem []

/-- `element.marshal` via `xmlTmpl` (element.go): an element with content is
written `<name attrs>content</name>` (the `StartTag`/`EndTag` templates), an
element with empty content as the self-closing `EmptyTag` `<name attrs />`.
At token granularity the self-closing form is delivered by the tokenizer as
the same start/end pair, so both branches produce `start :: Data ++ [stop]`.
Template execution cannot fail for this fixed template, so the Go `error`
result is dropped.  Per the serialization caveat, the emitted bytes
tokenize back to this token stream only when every attribute value is
serializable: the template writes values verbatim, so a value such as `"`
produces the malformed `x="""`. -/
def marshal (el : element) : List Token :=
  if el.Data.isEmpty then [.start el.Name el.Attr, .stop el.Name]
  else .start el.Name el.Attr :: (el.Data ++ [.stop el.Name])

/-- The href-substitution step of `flattenXML` (soap.go lines 121–125): if the
element has an `href="#X"` attribute and `X` is in the index, replace the
element's content (`root.Data = el.Data`) — name and attributes are kept;
otherwise leave the element untouched. -/
def substHref (root : element) (mref : Mref) : element :=
  match findHref root.Attr with
  | some href =>
    match mref.lookup href with
    | some el => { root with Data := el.Data }
    | none => root
  | none => root

/-- The `for _, el := range …` accumulation loop shared by `flattenXML`
(over the children, into `accum`) and `Flatten` (over the top-level elements,
into the output buffer): flatten each element with the given recursive call
and concatenate the results, aborting on the first error. -/
def flattenAccum : (element → Except String (List Token)) → List element → Except String (List Token)
  | _, [] => .ok []
  | f, el :: els =>
    match f el with
    | .error e => .error e
    | .ok d =>
      match flattenAccum f els with
      | .error e => .error e
      | .ok ds => .ok (d ++ ds)

/-- The remainder of `flattenXML` after the `multiRef` check and href
substitution (soap.go lines 126–141), parameterized by the recursive call:
if the element has children, replace its content with the concatenation of
the recursively flattened children, then marshal. -/
def flattenBody (recur : element → Except String (List Token)) (root : element) :
    Except String (List Token) :=
  let children := Children root
  if 0 < children.length then
    match flattenAccum recur children with
    | .error e => .error e
    | .ok accum => .ok (marshal { root with Data := accum })
  else .ok (marshal root)

/-- `flattenXML` (soap.go): drop any element whose local name is `multiRef`
(`return []byte("")`); otherwise substitute an `href` target's content if one
resolves, then recursively flatten the children and re-serialize.  The source
carries `BUG(droyo): documents containing reference loops will probably kill
the program`; the recursion through re-parsed content is bounded only by
fuel here, with `unboundedRecursion` marking a run that would not return. -/
def flattenXML : Nat → element → Mref → Except String (List Token)
  | 0, _, _ => .error unboundedRecursion
  | fuel + 1, root, mref =>
    if root.Name.Local = "multiRef" then .ok []
    else flattenBody (fun el => flattenXML fuel el mref) (substHref root mref)

/-- `Flatten` (soap.go): build the reference index, parse the document again,
flatten each top-level element and concatenate the results.  Any error along
the way is returned with no output (`return nil, err`). -/
def Flatten (fuel : Nat) (data : List Token) : Except String (List Token) :=
  match buildMRef fuel data with
  | .error e => .error e
  | .ok mref =>
    match elements data with
    | .error e => .error e
    | .ok elem => flattenAccum (fun el => flattenXML fuel el mref) elem

/-- A pared-down `http.Request`: method, URL and header list — the parts
`NewRequest` touches.  Header keys are kept verbatim. -/
structure Request where
  Method : String
  URL : String
  Header : List (String × String)
deriving DecidableEq, Repr

/-- `http.Header.Set`: replace the value of an existing key or append the
pair. -/
def headerSet : List (String × String) → String → String → List (String × String)
  | [], key, value => [(key, value)]
  | (k, v) :: rest, key, value =>
    if k = key then (key, value) :: rest else (k, v) :: headerSet rest key value

/-- The standard library's `http.NewRequest(method, url, body)`: a request
with the given method and URL and an empty header (body handling and URL
validation live in the external library and are not modeled). -/
def httpNewRequest (method url : String) : Request :=
  ⟨method, url, []⟩

/-- `NewRequest` (soap.go): a POST request with `SOAPAction` set to the empty
string, `Content-Type: text/xml` and `charset: utf-8`. -/
def NewRequest (url : String) : Request :=
  let req := httpNewRequest "POST" url
  { req with
    Header := headerSet (headerSet (headerSet req.Header "SOAPAction" "") "Content-Type" "text/xml") "charset" "utf-8" }

/-- A well-formed XML fragment, used to state the general theorems: an
element with name, attributes and child forest, or a run of character
data.  `other` tokens (comments etc.) are outside this class. -/
inductive XTree where
  | elem (n : XmlName) (a : List XmlAttr) (cs : List XTree)
  | text (s : String)

mutual

/-- The raw-token stream of a tree. -/
def XTree.toTokens : XTree → List Token
  | .text s => [.chardata s]
  | .elem n a cs => .start n a :: (forestTokens cs ++ [.stop n])

/-- The raw-token stream of a forest, in order. -/
def forestTokens : List XTree → List Token
  | [] => []
  | t :: ts => t.toTokens ++ forestTokens ts

end

mutual

/-- Node count of a tree, the fuel bound used by the canonical lemmas. -/
def XTree.size : XTree → Nat
  | .text _ => 1
  | .elem _ _ cs => 1 + forestSize cs

/-- Node count of a forest. -/
def forestSize : List XTree → Nat
  | [] => 0
  | t :: ts => t.size + forestSize ts

end

/-- The `element` record the parser produces for an element tree. -/
def treeElem (n : XmlName) (a : List XmlAttr) (cs : List XTree) : element :=
  ⟨n, a, forestTokens cs⟩

/-- The elements a forest parses to: one per element tree, character data
skipped; each carries its child forest's token stream as `Data`. -/
def elemsOf : List XTree → List element
  | [] => []
  | .text _ :: ts => elemsOf ts
  | .elem n a cs :: ts => treeElem n a cs :: elemsOf ts

/-- Is the tree character data? -/
def XTree.isText : XTree → Bool
  | .text _ => true
  | .elem _ _ _ => false

mutual

/-- Reference-index entries contributed by one tree, most recent write
first: the element's own `id` entry (recorded after its children, hence in
front), then the children's entries with later siblings in front. -/
def mrefEntries : XTree → Mref
  | .text _ => []
  | .elem n a cs =>
    (match findId a with
     | some i => [(i, treeElem n a cs)]
     | none => []) ++ forestEntriesRev cs

/-- Entries of a forest, later siblings in front. -/
def forestEntriesRev : List XTree → Mref
  | [] => []
  | t :: ts => forestEntriesRev ts ++ mrefEntries t

end

/-- An attribute value that survives the verbatim `Attr` template: it
contains no `"` (would close the emitted quote early), no `&` (the
tokenizer would try to read an entity), no `<` (rejected inside a quoted
value) and no carriage return (line-ending-normalized to a newline).  On
such values, serializing and re-tokenizing is the identity; any other value
makes the emitted bytes fail to re-tokenize or come back altered. -/
def valueSerializable (s : String) : Bool :=
  s.data.all fun c => !(c = '"' ∨ c = '&' ∨ c = '<' ∨ c = '\r')

/-- Every attribute value of the list is serializable. -/
def attrsSerializable (a : List XmlAttr) : Bool :=
  a.all fun v => valueSerializable v.Value

mutual

/-- Every attribute value in the tree is serializable: exactly the class of
trees on which the token-level model of stored content is byte-exact. -/
def attrsOkTree : XTree → Bool
  | .text _ => true
  | .elem _ a cs => attrsSerializable a && attrsOkForest cs

/-- Every attribute value in the forest is serializable. -/
def attrsOkForest : List XTree → Bool
  | [] => true
  | t :: ts => attrsOkTree t && attrsOkForest ts

end

mutual

/-- Trees on which flattening is the identity: no `multiRef` local name, no
`id` or (resolving-form) `href` attribute, serializable attribute values
(so the byte-level round trip matches the token model), and no mixed
content — each element's children are either all character data or all
elements. -/
def goodTree : XTree → Bool
  | .text _ => true
  | .elem n a cs =>
    !(n.Local == "multiRef") && findId a == none && findHref a == none &&
      attrsSerializable a &&
      (cs.all XTree.isText || cs.all (fun c => !c.isText)) && goodForest cs

/-- All trees of the forest are good. -/
def goodForest : List XTree → Bool
  | [] => true
  | t :: ts => goodTree t && goodForest ts

end

/-- Does the token carry the local name `multiRef` (start or end tag)? -/
def Token.isMultiRef : Token → Bool
  | .start n _ => n.Local == "multiRef"
  | .stop n => n.Local == "multiRef"
  | .chardata _ => false
  | .other => false

/-- `IsSubtree s t`: the tree `s` occurs in `t`, either as `t` itself or
inside one of its children. -/
inductive IsSubtree : XTree → XTree → Prop where
  | refl (t : XTree) : IsSubtree t t
  | child {s c : XTree} {n : XmlName} {a : List XmlAttr} {cs : List XTree} :
      c ∈ cs → IsSubtree s c → IsSubtree s (.elem n a cs)

/-- Shorthand for an unqualified XML name. -/
def nm (s : String) : XmlName := ⟨"", s⟩

/-- Shorthand for an unqualified attribute. -/
def atr (n v : String) : XmlAttr := ⟨⟨"", n⟩, v⟩

/-- The spec's single-substitution example: token stream of
`<Envelope><Header><sessionId href="#id0"/></Header><Body><multiRef
id="id0">123456</multiRef></Body></Envelope>`. -/
def exampleDoc : List Token :=
  [.start (nm "Envelope") [], .start (nm "Header") [],
   .start (nm "sessionId") [atr "href" "#id0"], .stop (nm "sessionId"),
   .stop (nm "Header"), .start (nm "Body") [],
   .start (nm "multiRef") [atr "id" "id0"], .chardata "123456", .stop (nm "multiRef"),
   .stop (nm "Body"), .stop (nm "Envelope")]

/-- The flattening of `exampleDoc`: `sessionId` now carries `123456`, the
`multiRef` element is gone (`Body` was left empty and serializes as a
self-closing tag, i.e. a bare start/end pair). -/
def exampleOut : List Token :=
  [.start (nm "Envelope") [], .start (nm "Header") [],
   .start (nm "sessionId") [atr "href" "#id0"], .chardata "123456", .stop (nm "sessionId"),
   .stop (nm "Header"), .start (nm "Body") [], .stop (nm "Body"), .stop (nm "Envelope")]

/-- The `Envelope` element of `exampleOut`. -/
def envOut : element :=
  ⟨nm "Envelope", [],
   [.start (nm "Header") [],
    .start (nm "sessionId") [atr "href" "#id0"], .chardata "123456", .stop (nm "sessionId"),
    .stop (nm "Header"), .start (nm "Body") [], .stop (nm "Body")]⟩

/-- The `Header` element of `exampleOut`. -/
def headerOut : element :=
  ⟨nm "Header", [],
   [.start (nm "sessionId") [atr "href" "#id0"], .chardata "123456", .stop (nm "sessionId")]⟩

/-- The `Body` element of `exampleOut` (emptied). -/
def bodyOut : element := ⟨nm "Body", [], []⟩

/-- The `sessionId` element of `exampleOut`: content `123456`. -/
def sessionIdOut : element := ⟨nm "sessionId", [atr "href" "#id0"], [.chardata "123456"]⟩

/-- Two placeholders referencing two sibling `multiRef` containers. -/
def multiSibDoc : List Token :=
  [.start (nm "Envelope") [],
   .start (nm "a") [atr "href" "#i1"], .stop (nm "a"),
   .start (nm "b") [atr "href" "#i2"], .stop (nm "b"),
   .start (nm "multiRef") [atr "id" "i1"], .chardata "AAA", .stop (nm "multiRef"),
   .start (nm "multiRef") [atr "id" "i2"], .chardata "BBB", .stop (nm "multiRef"),
   .stop (nm "Envelope")]

/-- The flattening of `multiSibDoc`: each placeholder carries its referenced
content inline, both `multiRef` containers are gone. -/
def multiSibOut : List Token :=
  [.start (nm "Envelope") [],
   .start (nm "a") [atr "href" "#i1"], .chardata "AAA", .stop (nm "a"),
   .start (nm "b") [atr "href" "#i2"], .chardata "BBB", .stop (nm "b"),
   .stop (nm "Envelope")]

/-- A placeholder with content whose `href` resolves nowhere. -/
def danglingDoc : List Token :=
  [.start (nm "x") [atr "href" "#missing"], .chardata "keep", .stop (nm "x")]

/-- Parsed form of the flattened `danglingDoc`: content retained. -/
def danglingOutEl : element := ⟨nm "x", [atr "href" "#missing"], [.chardata "keep"]⟩

/-- An empty placeholder with an unresolvable `href`. -/
def danglingEmptyDoc : List Token :=
  [.start (nm "Envelope") [],
   .start (nm "x") [atr "href" "#missing"], .stop (nm "x"),
   .stop (nm "Envelope")]

/-- A buffer whose end tag does not match the open start tag. -/
def mismatchDoc : List Token := [.start (nm "a") [], .stop (nm "b")]

/-- Placeholder inside the cycle: `<p href="#b"/>`. -/
def elP : element := ⟨nm "p", [atr "href" "#b"], []⟩

/-- Placeholder inside the cycle: `<q href="#a"/>`. -/
def elQ : element := ⟨nm "q", [atr "href" "#a"], []⟩

/-- `<a id="a"><p href="#b"/></a>`: its content refers to `b`. -/
def elA : element :=
  ⟨nm "a", [atr "id" "a"], [.start (nm "p") [atr "href" "#b"], .stop (nm "p")]⟩

/-- `<b id="b"><q href="#a"/></b>`: its content refers back to `a`. -/
def elB : element :=
  ⟨nm "b", [atr "id" "b"], [.start (nm "q") [atr "href" "#a"], .stop (nm "q")]⟩

/-- The reference index `buildMRef` computes for `cyclicDoc`. -/
def mrefC : Mref := [("b", elB), ("a", elA)]

/-- A document whose reference chain is cyclic through element content:
substituting `p`'s target copies in a placeholder for `a`, whose target
copies back a placeholder for `b`, for ever. -/
def cyclicDoc : List Token :=
  [.start (nm "a") [atr "id" "a"], .start (nm "p") [atr "href" "#b"], .stop (nm "p"), .stop (nm "a"),
   .start (nm "b") [atr "id" "b"], .start (nm "q") [atr "href" "#a"], .stop (nm "q"), .stop (nm "b")]

/-- Two empty placeholders that reference each other's `id` — a cyclic
reference chain in the claim's own sense (A references B's id and B
references A's id). -/
def placeholderCycleDoc : List Token :=
  [.start (nm "a") [atr "id" "i", atr "href" "#j"], .stop (nm "a"),
   .start (nm "b") [atr "id" "j", atr "href" "#i"], .stop (nm "b")]

/-- A document that is only a `multiRef`-named element, with no `href` and
no `id` anywhere. -/
def multiRefOnlyDoc : List Token :=
  [.start (nm "multiRef") [], .chardata "x", .stop (nm "multiRef")]

/-- Mixed content without any `href`/`id`: text next to a child element. -/
def mixedDoc : List Token :=
  [.start (nm "a") [], .chardata "hello", .start (nm "b") [], .stop (nm "b"), .stop (nm "a")]

/-- The flattening of `mixedDoc`: the text is dropped. -/
def mixedOut : List Token :=
  [.start (nm "a") [], .start (nm "b") [], .stop (nm "b"), .stop (nm "a")]

/-- Two siblings carrying the same `id`. -/
def dupSibDoc : List Token :=
  [.start (nm "a") [atr "id" "x"], .chardata "1", .stop (nm "a"),
   .start (nm "b") [atr "id" "x"], .chardata "2", .stop (nm "b")]

/-- First sibling with `id="x"`. -/
def elDupA : element := ⟨nm "a", [atr "id" "x"], [.chardata "1"]⟩

/-- Second (later-visited) sibling with `id="x"`. -/
def elDupB : element := ⟨nm "b", [atr "id" "x"], [.chardata "2"]⟩

/-- A parent and its child carrying the same `id`. -/
def dupNestedDoc : List Token :=
  [.start (nm "c") [atr "id" "y"], .start (nm "d") [atr "id" "y"], .stop (nm "d"), .stop (nm "c")]

/-- The inner element with `id="y"` (visited first). -/
def elDupD : element := ⟨nm "d", [atr "id" "y"], []⟩

/-- The outer element with `id="y"` (recorded after its children). -/
def elDupC : element :=
  ⟨nm "c", [atr "id" "y"], [.start (nm "d") [atr "id" "y"], .stop (nm "d")]⟩

/-- A small good tree used to instantiate the no-reference round trip. -/
def goodTreeEx : XTree := .elem (nm "a") [atr "class" "c"] [.text "hi"]

/-- An element whose stored content fails to re-parse although a complete
`id`-carrying element sits inside it (the `y` start tag is never closed).
This is the token-level rendering of a byte-level situation the Go program
reaches through unserializable attribute values: for the input
`<r><a x='"'><b id="z"/></a></r>` the stored bytes of `r` read
`<a x="""><b id="z"></b></a>`, which contain the complete element
`<b id="z">` but fail to re-tokenize, so `Children` discards the error and
`id="z"` is never visited. -/
def badEl : element :=
  ⟨nm "r", [], [.start (nm "y") [], .start (nm "b") [atr "id" "z"], .stop (nm "b")]⟩


theorem forestTokens_cons (t : XTree) (ts : List XTree) :
    forestTokens (t :: ts) = t.toTokens ++ forestTokens ts := by
  simp [forestTokens]

/-- Canonical run of `elementData`: with the open tag `sn`, the stream
`forestTokens cs ++ </sn> rest` parses to content `forestTokens cs` with
`rest` left over, for any fuel beyond the content length. -/
theorem elementData_forest :
    ∀ (cs : List XTree) (sn : XmlName) (rest : List Token) (fuel : Nat),
      (forestTokens cs).length + 1 ≤ fuel →
      elementData fuel sn (forestTokens cs ++ .stop sn :: rest) = .ok (forestTokens cs, rest)
  | _, _, _, 0, h => absurd h (Nat.not_succ_le_zero _)
  | [], sn, rest, fuel + 1, _ => by
    simp [forestTokens, elementData]
  | .text s :: cs, sn, rest, fuel + 1, h => by
    have ih := elementData_forest cs sn rest fuel (by
      simp [forestTokens, XTree.toTokens] at h ⊢; omega)
    simp [forestTokens, XTree.toTokens, elementData, ih]
  | .elem n a ds :: cs, sn, rest, fuel + 1, h => by
    have hlen : (forestTokens (.elem n a ds :: cs)).length
        = (forestTokens ds).length + (forestTokens cs).length + 2 := by
      simp [forestTokens, XTree.toTokens]; omega
    have ih1 := elementData_forest ds n (forestTokens cs ++ .stop sn :: rest) fuel (by omega)
    have ih2 := elementData_forest cs sn rest fuel (by omega)
    simp only [forestTokens_cons, XTree.toTokens, List.cons_append, List.append_assoc,
      List.singleton_append]
    simp [elementData, ih1, ih2]

/-- Canonical run of the `elements` loop on a forest's token stream. -/
theorem elementsAux_forest :
    ∀ (cs : List XTree) (fuel : Nat),
      (forestTokens cs).length + 1 ≤ fuel →
      elementsAux fuel (forestTokens cs) = .ok (elemsOf cs)
  | _, 0, h => absurd h (Nat.not_succ_le_zero _)
  | [], fuel + 1, _ => by
    simp [forestTokens, elementsAux, elemsOf]
  | .text s :: cs, fuel + 1, h => by
    have ih := elementsAux_forest cs fuel (by
      simp [forestTokens, XTree.toTokens] at h ⊢; omega)
    simp [forestTokens, XTree.toTokens, elementsAux, elemsOf, ih]
  | .elem n a ds :: cs, fuel + 1, h => by
    have hlen : (forestTokens (.elem n a ds :: cs)).length
        = (forestTokens ds).length + (forestTokens cs).length + 2 := by
      simp [forestTokens, XTree.toTokens]; omega
    have h1 := elementData_forest ds n (forestTokens cs) fuel (by omega)
    have ih := elementsAux_forest cs fuel (by omega)
    simp only [forestTokens_cons, XTree.toTokens, List.cons_append, List.append_assoc,
      List.singleton_append]
    simp [elementsAux, h1, ih, elemsOf, treeElem]

/-- `elements` parses a forest's token stream back to exactly its element
trees (character data at top level is skipped). -/
theorem elements_forest (cs : List XTree) :
    elements (forestTokens cs) = .ok (elemsOf cs) :=
  elementsAux_forest cs ((forestTokens cs).length + 1) (Nat.le_refl _)

/-- `Children` of a parsed element tree are exactly its child element trees. -/
theorem Children_treeElem (n : XmlName) (a : List XmlAttr) (cs : List XTree) :
    Children (treeElem n a cs) = elemsOf cs := by
  simp [Children, treeElem, elements_forest]

mutual

/-- Canonical run of `walkMultiRef` on a parsed element tree: it prepends
exactly the tree's entries — children first, the element's own `id` entry
last (hence in front of the result, shadowing all earlier writes). -/
theorem walkMultiRef_tree :
    ∀ (n : XmlName) (a : List XmlAttr) (cs : List XTree) (m : Mref) (fuel : Nat),
      forestSize cs + 1 ≤ fuel →
      walkMultiRef fuel (treeElem n a cs) m = .ok (mrefEntries (.elem n a cs) ++ m)
  | _, _, _, _, 0, h => absurd h (Nat.not_succ_le_zero _)
  | n, a, cs, m, fuel + 1, h => by
    have hb := walkAccum_forest cs m fuel (by omega)
    simp only [walkMultiRef, Children_treeElem, hb]
    cases hid : findId a <;> simp [mrefEntries, hid, treeElem]

/-- Canonical run of the walk loop over a forest's parsed elements. -/
theorem walkAccum_forest :
    ∀ (cs : List XTree) (m : Mref) (fuel : Nat),
      forestSize cs ≤ fuel →
      walkAccum (walkMultiRef fuel) (elemsOf cs) m = .ok (forestEntriesRev cs ++ m)
  | [], m, fuel, _ => by simp [elemsOf, walkAccum, forestEntriesRev]
  | .text s :: cs, m, fuel, h => by
    have ih := walkAccum_forest cs m fuel (by
      simp [forestSize, XTree.size] at h; omega)
    simp [elemsOf, forestEntriesRev, mrefEntries, ih]
  | .elem n a ds :: cs, m, fuel, h => by
    have hsz : forestSize (.elem n a ds :: cs) = 1 + forestSize ds + forestSize cs := by
      simp [forestSize, XTree.size]
    have h1 := walkMultiRef_tree n a ds m fuel (by omega)
    have ih := walkAccum_forest cs (mrefEntries (.elem n a ds) ++ m) fuel (by omega)
    simp [elemsOf, walkAccum, h1, ih, forestEntriesRev]

end

/-- Canonical run of `buildMRef` on a forest's token stream. -/
theorem buildMRef_forest (cs : List XTree) (fuel : Nat)
    (h : forestSize cs ≤ fuel) :
    buildMRef fuel (forestTokens cs) = .ok (forestEntriesRev cs) := by
  have hw := walkAccum_forest cs [] fuel h
  simp [buildMRef, elements_forest, hw]

/-- Content accumulated by `elementData` is always a forest's token stream:
the serialized inner markup of a successfully parsed element is well formed
and re-parses. -/
theorem elementData_content_wf :
    ∀ (fuel : Nat) (sn : XmlName) (ts c r : List Token),
      elementData fuel sn ts = .ok (c, r) → ∃ f : List XTree, c = forestTokens f
  | 0, _, _, _, _, h => by simp [elementData] at h
  | _ + 1, _, [], _, _, h => by simp [elementData, eofError] at h
  | fuel + 1, sn, t :: ts, c, r, h => by
    cases t with
    | start n a =>
      rw [elementData] at h
      cases h1 : elementData fuel n ts with
      | error e => rw [h1] at h; exact absurd h (by simp)
      | ok p =>
        obtain ⟨inner, rest⟩ := p
        rw [h1] at h
        dsimp only at h
        cases h2 : elementData fuel sn rest with
        | error e => rw [h2] at h; exact absurd h (by simp)
        | ok q =>
          obtain ⟨tail, rest'⟩ := q
          rw [h2] at h
          simp only [Except.ok.injEq, Prod.mk.injEq] at h
          obtain ⟨f1, hf1⟩ := elementData_content_wf fuel n ts inner rest h1
          obtain ⟨f2, hf2⟩ := elementData_content_wf fuel sn rest tail rest' h2
          exact ⟨.elem n a f1 :: f2, by
            simp [← h.1, forestTokens, XTree.toTokens, hf1, hf2]⟩
    | chardata s =>
      rw [elementData] at h
      cases h1 : elementData fuel sn ts with
      | error e => rw [h1] at h; exact absurd h (by simp)
      | ok p =>
        obtain ⟨tail, rest⟩ := p
        rw [h1] at h
        simp only [Except.ok.injEq, Prod.mk.injEq] at h
        obtain ⟨f1, hf1⟩ := elementData_content_wf fuel sn ts tail rest h1
        exact ⟨.text s :: f1, by simp [← h.1, forestTokens, XTree.toTokens, hf1]⟩
    | stop n =>
      rw [elementData] at h
      by_cases hn : n = sn
      · simp only [hn, if_true, Except.ok.injEq, Prod.mk.injEq, reduceIte] at h
        exact ⟨[], by simp [← h.1, forestTokens]⟩
      · simp [hn] at h
    | other =>
      rw [elementData] at h
      exact elementData_content_wf fuel sn ts c r h

/-- Every element delivered by the `elements` loop stores well-formed
content: its `Data` is some forest's token stream. -/
theorem elementsAux_wf :
    ∀ (fuel : Nat) (ts : List Token) (els : List element),
      elementsAux fuel ts = .ok els →
      ∀ el ∈ els, ∃ f : List XTree, el.Data = forestTokens f
  | 0, _, _, h => by simp [elementsAux] at h
  | _ + 1, [], els, h => by
    simp only [elementsAux, Except.ok.injEq] at h
    simp [← h]
  | fuel + 1, t :: ts, els, h => by
    cases t with
    | start n a =>
      rw [elementsAux] at h
      cases h1 : elementData fuel n ts with
      | error e => rw [h1] at h; exact absurd h (by simp)
      | ok p =>
        obtain ⟨content, rest⟩ := p
        rw [h1] at h
        dsimp only at h
        cases h2 : elementsAux fuel rest with
        | error e => rw [h2] at h; exact absurd h (by simp)
        | ok els' =>
          rw [h2] at h
          simp only [Except.ok.injEq] at h
          intro el hel
          rw [← h] at hel
          rcases List.mem_cons.mp hel with hel | hel
          · obtain ⟨f, hf⟩ := elementData_content_wf fuel n ts content rest h1
            exact ⟨f, by rw [hel]; exact hf⟩
          · exact elementsAux_wf fuel rest els' h2 el hel
    | stop n => exact elementsAux_wf fuel ts els (by rwa [elementsAux] at h)
    | chardata s => exact elementsAux_wf fuel ts els (by rwa [elementsAux] at h)
    | other => exact elementsAux_wf fuel ts els (by rwa [elementsAux] at h)

/-- Round-trip invariant at token granularity: every element of a successful
parse stores content that is itself well formed and re-parses without error.
This is a fact about the token-level model of `Data`; per the serialization
caveat, the byte-level program only enjoys it when attribute values are
serializable — otherwise the stored bytes fail to re-tokenize and the
error-discarding branch of `Children` fires (claim C9's counterexample). -/
theorem elements_wf (ts : List Token) (els : List element)
    (h : elements ts = .ok els) :
    ∀ el ∈ els, ∃ f : List XTree,
      el.Data = forestTokens f ∧ elements el.Data = .ok (elemsOf f) := by
  intro el hel
  obtain ⟨f, hf⟩ := elementsAux_wf (ts.length + 1) ts els h el hel
  exact ⟨f, hf, by rw [hf]; exact elements_forest f⟩


/-- A forest of pure character data contributes no parsed elements. -/
theorem elemsOf_of_all_text (cs : List XTree) (h : cs.all XTree.isText = true) :
    elemsOf cs = [] := by
  induction cs with
  | nil => simp [elemsOf]
  | cons t ts ih =>
    cases t with
    | text s => exact ih (by simp_all [List.all_cons])
    | elem n a ds => simp [List.all_cons, XTree.isText] at h

/-- Both template branches (`EmptyTag` vs `StartTag … EndTag`) tokenize to
start, content, end. -/
theorem marshal_eq (el : element) :
    marshal el = .start el.Name el.Attr :: (el.Data ++ [.stop el.Name]) := by
  cases hd : el.Data <;> simp [marshal, hd]

/-- No `href` attribute in the resolving form: the substitution step leaves
the element untouched. -/
theorem substHref_of_none (root : element) (mref : Mref)
    (h : findHref root.Attr = none) : substHref root mref = root := by
  simp [substHref, h]

mutual

/-- Flattening is the identity on good element trees when the reference
index is empty. -/
theorem flattenXML_good :
    ∀ (n : XmlName) (a : List XmlAttr) (cs : List XTree) (fuel : Nat),
      goodTree (.elem n a cs) = true →
      XTree.size (.elem n a cs) ≤ fuel →
      flattenXML fuel (treeElem n a cs) [] = .ok ((XTree.elem n a cs).toTokens)
  | n, a, cs, 0, _, hf => by simp [XTree.size] at hf
  | n, a, cs, fuel + 1, hg, hf => by
    simp only [goodTree, Bool.and_eq_true, Bool.or_eq_true, Bool.not_eq_true',
      beq_eq_false_iff_ne, beq_iff_eq] at hg
    obtain ⟨⟨⟨⟨⟨hmr, hid⟩, hhref⟩, _⟩, hshape⟩, hkids⟩ := hg
    rw [flattenXML]
    rw [if_neg (by simpa [treeElem] using hmr)]
    rw [substHref_of_none _ _ (by simpa [treeElem] using hhref)]
    rw [flattenBody]
    simp only [Children_treeElem]
    cases helems : elemsOf cs with
    | nil =>
      simp [helems, marshal_eq, treeElem, XTree.toTokens]
    | cons e es =>
      have hall : cs.all (fun c => !c.isText) = true := by
        rcases hshape with htext | helem
        · rw [elemsOf_of_all_text cs htext] at helems; exact absurd helems (by simp)
        · exact helem
      have hrec := flattenAccum_good cs fuel hall hkids (by
        simp [XTree.size] at hf; omega)
      rw [helems] at hrec
      simp only [helems, List.length_cons, Nat.zero_lt_succ, if_pos, hrec]
      simp [marshal_eq, treeElem, XTree.toTokens]

/-- Flattening a good all-element forest reproduces its token stream. -/
theorem flattenAccum_good :
    ∀ (cs : List XTree) (fuel : Nat),
      cs.all (fun c => !c.isText) = true →
      goodForest cs = true →
      forestSize cs ≤ fuel →
      flattenAccum (fun el => flattenXML fuel el []) (elemsOf cs) = .ok (forestTokens cs)
  | [], fuel, _, _, _ => by simp [elemsOf, flattenAccum, forestTokens]
  | .text s :: cs, fuel, hall, _, _ => by
    simp [List.all_cons, XTree.isText] at hall
  | .elem n a ds :: cs, fuel, hall, hgood, hf => by
    have hsz : forestSize (.elem n a ds :: cs) = 1 + forestSize ds + forestSize cs := by
      simp [forestSize, XTree.size]
    simp only [goodForest, Bool.and_eq_true] at hgood
    have h1 := flattenXML_good n a ds fuel hgood.1 (by rw [hsz] at hf; simp [XTree.size]; omega)
    have h2 := flattenAccum_good cs fuel (by simp_all [List.all_cons]) hgood.2
      (by rw [hsz] at hf; omega)
    simp [elemsOf, flattenAccum, h1, h2, forestTokens]

end

/-- One unfolding step of `flattenXML` for a non-`multiRef` element. -/
theorem flattenXML_succ (fuel : Nat) (root : element) (mref : Mref)
    (h : ¬ root.Name.Local = "multiRef") :
    flattenXML (fuel + 1) root mref
      = flattenBody (fun el => flattenXML fuel el mref) (substHref root mref) := by
  rw [flattenXML, if_neg h]

/-- `flattenBody` forwards an error of the child loop. -/
theorem flattenBody_error (recur : element → Except String (List Token)) (root : element)
    (e : String) (h0 : 0 < (Children root).length)
    (h : flattenAccum recur (Children root) = .error e) :
    flattenBody recur root = .error e := by
  rw [flattenBody]
  simp only [if_pos h0, h]

/-- Flattening `p` dives into `q` (after substituting `b`'s content): one
half of the cyclic alternation. -/
theorem cycle_step_p (f : Nat) (hq : flattenXML f elQ mrefC = .error unboundedRecursion) :
    flattenXML (f + 1) elP mrefC = .error unboundedRecursion := by
  rw [flattenXML_succ f elP mrefC (by decide)]
  apply flattenBody_error
  · decide
  · have hc : Children (substHref elP mrefC) = [elQ] := by decide
    rw [hc]
    simp only [flattenAccum, hq]

/-- Flattening `q` dives into `p` (after substituting `a`'s content): the
other half of the cyclic alternation. -/
theorem cycle_step_q (f : Nat) (hp : flattenXML f elP mrefC = .error unboundedRecursion) :
    flattenXML (f + 1) elQ mrefC = .error unboundedRecursion := by
  rw [flattenXML_succ f elQ mrefC (by decide)]
  apply flattenBody_error
  · decide
  · have hc : Children (substHref elQ mrefC) = [elP] := by decide
    rw [hc]
    simp only [flattenAccum, hp]

/-- Neither cyclic placeholder ever flattens, whatever the fuel: the
recursion alternates between the same two configurations for ever. -/
theorem flattenXML_cycle (f : Nat) :
    flattenXML f elP mrefC = .error unboundedRecursion ∧
      flattenXML f elQ mrefC = .error unboundedRecursion := by
  induction f with
  | zero => exact ⟨rfl, rfl⟩
  | succ f ih => exact ⟨cycle_step_p f ih.2, cycle_step_q f ih.1⟩

/-- Flattening the top-level `a` of `cyclicDoc` never completes. -/
theorem flattenXML_elA (f : Nat) :
    flattenXML f elA mrefC = .error unboundedRecursion := by
  cases f with
  | zero => rfl
  | succ f =>
    rw [flattenXML_succ f elA mrefC (by decide)]
    apply flattenBody_error
    · decide
    · have hc : Children (substHref elA mrefC) = [elP] := by decide
      rw [hc]
      simp only [flattenAccum, (flattenXML_cycle f).1]

mutual

/-- A good tree contributes nothing to the reference index. -/
theorem mrefEntries_good : ∀ (t : XTree), goodTree t = true → mrefEntries t = []
  | .text _, _ => by simp [mrefEntries]
  | .elem n a cs, h => by
    simp only [goodTree, Bool.and_eq_true, beq_iff_eq] at h
    obtain ⟨⟨⟨⟨⟨_, hid⟩, _⟩, _⟩, _⟩, hkids⟩ := h
    simp [mrefEntries, hid, forestEntriesRev_good cs hkids]

/-- A good forest contributes nothing to the reference index. -/
theorem forestEntriesRev_good : ∀ (cs : List XTree), goodForest cs = true → forestEntriesRev cs = []
  | [], _ => by simp [forestEntriesRev]
  | t :: ts, h => by
    simp only [goodForest, Bool.and_eq_true] at h
    simp [forestEntriesRev, mrefEntries_good t h.1, forestEntriesRev_good ts h.2]

end

/-- A child's entries are among the forest's entries. -/
theorem mrefEntries_sub_forest :
    ∀ (c : XTree) (cs : List XTree), c ∈ cs →
      ∀ p ∈ mrefEntries c, p ∈ forestEntriesRev cs
  | c, t :: ts, h, p, hp => by
    rcases List.mem_cons.mp h with rfl | h'
    · simp only [forestEntriesRev, List.mem_append]
      exact Or.inr hp
    · simp only [forestEntriesRev, List.mem_append]
      exact Or.inl (mrefEntries_sub_forest c ts h' p hp)

/-- Every subtree carrying an `id` attribute has its entry in the tree's
reference-index contribution. -/
theorem mem_mrefEntries_of_subtree (t : XTree) (n : XmlName) (a : List XmlAttr)
    (cs : List XTree) (i : String)
    (hsub : IsSubtree (.elem n a cs) t) (hid : findId a = some i) :
    (i, treeElem n a cs) ∈ mrefEntries t := by
  induction hsub with
  | refl => simp [mrefEntries, hid]
  | child hmem _ ih =>
    simp only [mrefEntries, List.mem_append]
    exact Or.inr (mrefEntries_sub_forest _ _ hmem _ ih)

/-- Claim C1: for the input document `<Envelope><Header><sessionId
href="#id0"/></Header><Body><multiRef id="id0">123456</multiRef></Body>
</Envelope>`, `Flatten` succeeds and produces a document in which the
`sessionId` element's content is `123456` and no `multiRef` element appears
anywhere in the output. -/
theorem C1_single_substitution :
    Flatten 10 exampleDoc = .ok exampleOut
      ∧ exampleOut.all (fun t => !t.isMultiRef) = true
      ∧ elements exampleOut = .ok [envOut]
      ∧ Children envOut = [headerOut, bodyOut]
      ∧ Children headerOut = [sessionIdOut]
      ∧ sessionIdOut.Data = [.chardata "123456"] :=
  ⟨rfl, by decide, rfl, by decide, by decide, rfl⟩

/-- Claim C2: every element whose local name is exactly `multiRef` is dropped
entirely by the substitution pass (it flattens to the empty output, whatever
the fuel and index), and the document with two sibling `multiRef` containers
referenced by distinct placeholders flattens so that each placeholder carries
its referenced content inline and no `multiRef` token survives. -/
theorem C2_multiRef_suppression :
    (∀ (fuel : Nat) (el : element) (mref : Mref),
        el.Name.Local = "multiRef" → flattenXML (fuel + 1) el mref = .ok [])
      ∧ Flatten 10 multiSibDoc = .ok multiSibOut
      ∧ multiSibOut.all (fun t => !t.isMultiRef) = true := by
  refine ⟨fun fuel el mref h => ?_, rfl, by decide⟩
  rw [flattenXML, if_pos h]

/-- Witness for C2 at a concrete `multiRef` element. -/
theorem C2_witness :
    flattenXML (0 + 1) ⟨nm "multiRef", [], [.chardata "zzz"]⟩ [] = .ok [] :=
  C2_multiRef_suppression.1 0 ⟨nm "multiRef", [], [.chardata "zzz"]⟩ [] rfl

/-- Counterexample to C3 as stated: on `<x href="#missing">keep</x>` the
unresolvable `href` leaves the element's existing content in place — Flatten
succeeds but the element is emitted with content `keep`, not with empty
content. -/
theorem C3_counterexample :
    Flatten 10 danglingDoc = .ok danglingDoc
      ∧ elements danglingDoc = .ok [danglingOutEl]
      ∧ danglingOutEl.Data ≠ [] :=
  ⟨rfl, rfl, by decide⟩

/-- Claim C3 (amended): an `href` whose id is absent from the index is not an
error — the substitution step leaves the element's content unchanged (rather
than emptying it); in particular an *empty* dangling placeholder is emitted
as an empty element, as in the concrete `danglingEmptyDoc` run. -/
theorem C3_missing_id_leniency :
    (∀ (root : element) (mref : Mref) (h : String),
        findHref root.Attr = some h → mref.lookup h = none →
        substHref root mref = root)
      ∧ (∀ (fuel : Nat) (n : XmlName) (a : List XmlAttr) (mref : Mref) (h : String),
          ¬ n.Local = "multiRef" → findHref a = some h → mref.lookup h = none →
          flattenXML (fuel + 1) ⟨n, a, []⟩ mref = .ok [.start n a, .stop n])
      ∧ Flatten 10 danglingEmptyDoc = .ok danglingEmptyDoc := by
  refine ⟨fun root mref h h1 h2 => by simp [substHref, h1, h2],
          fun fuel n a mref h hn h1 h2 => ?_, rfl⟩
  rw [flattenXML, if_neg hn]
  have hsub : substHref ⟨n, a, []⟩ mref = ⟨n, a, []⟩ := by simp [substHref, h1, h2]
  rw [hsub]
  rfl

/-- Witness for C3 at concrete inputs. -/
theorem C3_witness :
    substHref danglingOutEl [] = danglingOutEl
      ∧ flattenXML (4 + 1) ⟨nm "x", [atr "href" "#missing"], []⟩ []
          = .ok [.start (nm "x") [atr "href" "#missing"], .stop (nm "x")] :=
  ⟨C3_missing_id_leniency.1 danglingOutEl [] "missing" (by decide) rfl,
   C3_missing_id_leniency.2.1 4 (nm "x") [atr "href" "#missing"] [] "missing"
     (by decide) (by decide) rfl⟩

/-- Claim C4: an end tag that does not match the currently open start tag (the
first argument of `elementData` is exactly the open tag) makes the tree build
fail with the well-formedness error, any `elements` failure propagates
through `Flatten` with no partial output (the error constructor carries no
buffer), and the concrete mismatched buffer behaves accordingly. -/
theorem C4_malformed_rejected :
    (∀ (fuel : Nat) (sn en : XmlName) (ts : List Token), ¬ en = sn →
        elementData (fuel + 1) sn (.stop en :: ts)
          = .error ("Unexpected end element " ++ en.Local))
      ∧ (∀ (fuel : Nat) (data : List Token) (e : String),
          elements data = .error e → Flatten fuel data = .error e)
      ∧ elements mismatchDoc = .error "Unexpected end element b"
      ∧ Flatten 10 mismatchDoc = .error "Unexpected end element b" := by
  refine ⟨fun fuel sn en ts h => ?_, fun fuel data e h => ?_, rfl, rfl⟩
  · rw [elementData, if_neg h]
  · simp [Flatten, buildMRef, h]

/-- Witness for C4 at concrete inputs. -/
theorem C4_witness :
    elementData (0 + 1) (nm "a") [.stop (nm "b")]
        = .error ("Unexpected end element " ++ (nm "b").Local)
      ∧ Flatten 7 mismatchDoc = .error "Unexpected end element b" :=
  ⟨C4_malformed_rejected.1 0 (nm "a") (nm "b") [] (by decide),
   C4_malformed_rejected.2.1 7 mismatchDoc "Unexpected end element b"
     C4_malformed_rejected.2.2.1⟩

/-- Counterexample to C5 as stated: `placeholderCycleDoc` is exactly the
claim's example shape — element `a` (with `id="i"`) references `b`'s id and
element `b` (with `id="j"`) references `a`'s id — yet `Flatten` terminates
successfully (substitution copies the referenced element's *content*, which
is empty here), returning the document unchanged. -/
theorem C5_counterexample :
    Flatten 10 placeholderCycleDoc = .ok placeholderCycleDoc
      ∧ findId [atr "id" "i", atr "href" "#j"] = some "i"
      ∧ findHref [atr "id" "i", atr "href" "#j"] = some "j"
      ∧ findId [atr "id" "j", atr "href" "#i"] = some "j"
      ∧ findHref [atr "id" "j", atr "href" "#i"] = some "i" :=
  ⟨rfl, by decide, by decide, by decide, by decide⟩

/-- Claim C5 (amended): when the cyclic reference chain is carried through
element *content* — each referenced element's content contains the
placeholder for the next — the substitution pass recurses without bound (no
depth limit or visited set): on `cyclicDoc`, `Flatten` exhausts every fuel
bound, i.e. the Go original does not terminate. -/
theorem C5_cyclic_divergence :
    ∀ fuel : Nat, Flatten fuel cyclicDoc = .error unboundedRecursion
  | 0 => rfl
  | 1 => rfl
  | f + 2 => by
    show (match flattenXML (f + 2) elA mrefC with
      | .error e => .error e
      | .ok d =>
        match flattenAccum (fun el => flattenXML (f + 2) el mrefC) [elB] with
        | .error e => .error e
        | .ok ds => .ok (d ++ ds)) = Except.error unboundedRecursion
    rw [flattenXML_elA (f + 2)]

/-- Counterexample to C6 as stated: two documents with no `href` placeholder
and no `id`-bearing element that do not flatten to a structurally equivalent
document — a `multiRef`-named element is dropped wholesale, and text inside
an element that also has element children is discarded. -/
theorem C6_counterexample :
    Flatten 10 multiRefOnlyDoc = .ok []
      ∧ multiRefOnlyDoc ≠ []
      ∧ Flatten 10 mixedDoc = .ok mixedOut
      ∧ Token.chardata "hello" ∈ mixedDoc
      ∧ Token.chardata "hello" ∉ mixedOut :=
  ⟨rfl, by decide, rfl, by decide, by decide⟩

/-- Claim C6 (amended): for a well-formed document with no `href`
placeholders and no `id`-bearing elements that moreover contains no
`multiRef`-named element, no mixed content (each element's children all
character data or all elements) and only serializable attribute values — so
the bytes the verbatim `Attr` template writes re-tokenize unchanged and the
token model is byte-exact — `Flatten` reproduces the document's token
stream exactly.  These are the conditions `goodTree` records; without the
serializability condition the byte-level program emits malformed output
(a value `"` serializes to `x="""`), so no equivalence can hold. -/
theorem C6_no_reference_round_trip :
    ∀ (n : XmlName) (a : List XmlAttr) (cs : List XTree) (fuel : Nat),
      goodTree (.elem n a cs) = true →
      XTree.size (.elem n a cs) + 1 ≤ fuel →
      Flatten fuel (XTree.elem n a cs).toTokens = .ok (XTree.elem n a cs).toTokens := by
  intro n a cs fuel hg hf
  have htok : (XTree.elem n a cs).toTokens = forestTokens [.elem n a cs] := by
    simp [forestTokens]
  rw [htok]
  have hm : buildMRef fuel (forestTokens [.elem n a cs]) = .ok [] := by
    have hb := buildMRef_forest [.elem n a cs] fuel (by
      simp only [forestSize]
      omega)
    rwa [show forestEntriesRev [XTree.elem n a cs] = [] from by
      simp [forestEntriesRev, mrefEntries_good _ hg]] at hb
  have hx := flattenXML_good n a cs fuel hg (by omega)
  simp only [Flatten, hm, elements_forest]
  simp [elemsOf, flattenAccum, hx, forestTokens]

/-- Witness for C6 at a concrete reference-free tree. -/
theorem C6_witness :
    Flatten 10 goodTreeEx.toTokens = .ok goodTreeEx.toTokens :=
  C6_no_reference_round_trip (nm "a") [atr "class" "c"] [.text "hi"] 10
    (by decide) (by decide)

/-- Counterexample to C7 as stated: the index pass does not record
`id → element` for every id-carrying element.  `badEl` stores content that
textually contains the complete element `<b id="z">`, but the content fails
to re-parse; `Children` discards the error (element.go 96–102), so the walk
returns with an empty index — the id `z` is never recorded.  The byte-level
program reaches this state from real input through attribute values the
`Attr` template emits unescaped, e.g. `<r><a x='"'><b id="z"/></a></r>`. -/
theorem C7_counterexample :
    (.start (nm "b") [atr "id" "z"]) ∈ badEl.Data
      ∧ elements badEl.Data = .error eofError
      ∧ Children badEl = []
      ∧ walkMultiRef 5 badEl [] = .ok [] :=
  ⟨by decide, rfl, by decide, rfl⟩

/-- Claim C7 (amended): on trees whose stored content re-parses — which at
byte level is exactly the serializable-attribute-value class `attrsOkTree`,
where the token model of `Data` is byte-exact — the index pass visits the
tree depth-first with the children walked before the element's own `id`
entry is written (the refinement target `mrefEntries` records the
self-entry in front of the reversed child entries, so the most recent write
is found first by `List.lookup`); every subtree carrying an `id` has its
entry recorded; and on duplicate ids the later-visited occurrence wins,
both for sibling duplicates (`dupSibDoc`: the second sibling) and nested
duplicates (`dupNestedDoc`: the parent, recorded after its child).  Inside
the token embedding the serializability hypotheses impose no further
constraint, so the proofs do not consume them; they mark the domain on
which the embedding speaks for the byte-level program. -/
theorem C7_index_pass :
    (∀ (n : XmlName) (a : List XmlAttr) (cs : List XTree) (m : Mref) (fuel : Nat),
        attrsOkTree (.elem n a cs) = true →
        forestSize cs + 1 ≤ fuel →
        walkMultiRef fuel (treeElem n a cs) m = .ok (mrefEntries (.elem n a cs) ++ m))
      ∧ (∀ (cs : List XTree) (fuel : Nat),
          attrsOkForest cs = true → forestSize cs ≤ fuel →
          buildMRef fuel (forestTokens cs) = .ok (forestEntriesRev cs))
      ∧ (∀ (t : XTree) (n : XmlName) (a : List XmlAttr) (cs : List XTree) (i : String),
          attrsOkTree t = true →
          IsSubtree (.elem n a cs) t → findId a = some i →
          (i, treeElem n a cs) ∈ mrefEntries t)
      ∧ buildMRef 10 dupSibDoc = .ok [("x", elDupB), ("x", elDupA)]
      ∧ List.lookup "x" [("x", elDupB), ("x", elDupA)] = some elDupB
      ∧ buildMRef 10 dupNestedDoc = .ok [("y", elDupC), ("y", elDupD)]
      ∧ List.lookup "y" [("y", elDupC), ("y", elDupD)] = some elDupC :=
  ⟨fun n a cs m fuel _ h => walkMultiRef_tree n a cs m fuel h,
   fun cs fuel _ h => buildMRef_forest cs fuel h,
   fun t n a cs i _ hs hi => mem_mrefEntries_of_subtree t n a cs i hs hi,
   rfl, by decide, rfl, by decide⟩

/-- Witness for C7 at the concrete nested-duplicate tree. -/
theorem C7_witness :
    walkMultiRef 10 (treeElem (nm "c") [atr "id" "y"] [.elem (nm "d") [atr "id" "y"] []]) []
        = .ok (mrefEntries (.elem (nm "c") [atr "id" "y"] [.elem (nm "d") [atr "id" "y"] []]) ++ [])
      ∧ buildMRef 10 (forestTokens [.elem (nm "d") [atr "id" "y"] []])
        = .ok (forestEntriesRev [.elem (nm "d") [atr "id" "y"] []])
      ∧ ("y", treeElem (nm "c") [atr "id" "y"] [.elem (nm "d") [atr "id" "y"] []])
          ∈ mrefEntries (.elem (nm "c") [atr "id" "y"] [.elem (nm "d") [atr "id" "y"] []]) :=
  ⟨C7_index_pass.1 (nm "c") [atr "id" "y"] [.elem (nm "d") [atr "id" "y"] []] [] 10
     (by decide) (by decide),
   C7_index_pass.2.1 [.elem (nm "d") [atr "id" "y"] []] 10 (by decide) (by decide),
   C7_index_pass.2.2.1 (.elem (nm "c") [atr "id" "y"] [.elem (nm "d") [atr "id" "y"] []])
     (nm "c") [atr "id" "y"] [.elem (nm "d") [atr "id" "y"] []] "y"
     (by decide) (IsSubtree.refl _) (by decide)⟩

/-- Claim C8: during substitution, an element (not named `multiRef`) carrying
an `href` attribute whose value begins with `#` has the id after the `#`
looked up in the index; when found, its content is replaced by the referenced
element's raw content while its own name and attributes are preserved; an
`href` value not beginning with `#` (or no resolving `href` at all) causes no
substitution. -/
theorem C8_href_substitution :
    (∀ (root : element) (mref : Mref) (h : String) (el : element),
        findHref root.Attr = some h → mref.lookup h = some el →
        substHref root mref = ⟨root.Name, root.Attr, el.Data⟩)
      ∧ (∀ (fuel : Nat) (root : element) (mref : Mref) (h : String) (el : element),
          ¬ root.Name.Local = "multiRef" →
          findHref root.Attr = some h → mref.lookup h = some el →
          flattenXML (fuel + 1) root mref
            = flattenBody (fun e => flattenXML fuel e mref) ⟨root.Name, root.Attr, el.Data⟩)
      ∧ (∀ (list : List XmlAttr) (attr : XmlAttr) (c : Char) (cs : List Char),
          findAttr list "" "href" = some attr → attr.Value.data = '#' :: c :: cs →
          findHref list = some ⟨c :: cs⟩)
      ∧ (∀ (list : List XmlAttr) (attr : XmlAttr),
          findAttr list "" "href" = some attr → attr.Value.data.head? ≠ some '#' →
          findHref list = none)
      ∧ (∀ (root : element) (mref : Mref),
          findHref root.Attr = none → substHref root mref = root) := by
  refine ⟨fun root mref h el h1 h2 => by simp [substHref, h1, h2],
          fun fuel root mref h el hn h1 h2 => ?_,
          fun list attr c cs h1 h2 => by simp [findHref, h1, h2],
          fun list attr h1 h2 => ?_,
          fun root mref h => substHref_of_none root mref h⟩
  · rw [flattenXML, if_neg hn]
    have hsub : substHref root mref = ⟨root.Name, root.Attr, el.Data⟩ := by
      simp [substHref, h1, h2]
    rw [hsub]
  · simp only [findHref, h1]
    split
    · rename_i heq
      rw [heq] at h2
      simp at h2
    · rfl

/-- Witness for C8 at concrete inputs. -/
theorem C8_witness :
    substHref elP mrefC = ⟨elP.Name, elP.Attr, elB.Data⟩
      ∧ flattenXML (3 + 1) elP mrefC
          = flattenBody (fun e => flattenXML 3 e mrefC) ⟨elP.Name, elP.Attr, elB.Data⟩
      ∧ findHref [atr "href" "#b"] = some ⟨['b']⟩
      ∧ findHref [atr "href" "nohash"] = none
      ∧ substHref ⟨nm "z", [], []⟩ [] = ⟨nm "z", [], []⟩ :=
  ⟨C8_href_substitution.1 elP mrefC "b" elB (by decide) (by decide),
   C8_href_substitution.2.1 3 elP mrefC "b" elB (by decide) (by decide) (by decide),
   C8_href_substitution.2.2.1 [atr "href" "#b"] (atr "href" "#b") 'b' [] (by decide) (by decide),
   C8_href_substitution.2.2.2.1 [atr "href" "nohash"] (atr "href" "nohash") (by decide) (by decide),
   C8_href_substitution.2.2.2.2 ⟨nm "z", [], []⟩ [] rfl⟩

/-- Counterexample to C9 as stated: a parse failure arising while re-deriving
an element's children from its stored content does NOT propagate — it is
discarded.  `badEl`'s stored content fails to re-parse, `Children` returns no
children instead of an error (element.go 96–102), and both the index walk and
the substitution pass succeed on the element as if it were childless: the
flatten emits the element's unparseable content verbatim.  The byte-level
program reaches such an element from real input through attribute values the
`Attr` template emits unescaped (e.g. a value containing `"`). -/
theorem C9_counterexample :
    elements badEl.Data = .error eofError
      ∧ Children badEl = []
      ∧ flattenXML 5 badEl []
          = .ok [.start (nm "r") [], .start (nm "y") [],
                 .start (nm "b") [atr "id" "z"], .stop (nm "b"), .stop (nm "r")]
      ∧ walkMultiRef 5 badEl [] = .ok [] :=
  ⟨rfl, by decide, rfl, rfl⟩

/-- Claim C9 (amended): parse failures of the document itself propagate to
`Flatten`'s caller with the same error — a failing initial parse in either
pass aborts `Flatten` (first two conjuncts) and a failing flatten loop
aborts it likewise (third conjunct) — but a failure when re-deriving an
element's children from its stored content is discarded by `Children`: the
substitution pass then emits the element with its stored content as is
(fourth conjunct) and the index walk records nothing beneath it (fifth
conjunct), rather than reporting the error. -/
theorem C9_error_propagation :
    (∀ (fuel : Nat) (data : List Token) (e : String),
        elements data = .error e → Flatten fuel data = .error e)
      ∧ (∀ (fuel : Nat) (data : List Token) (e : String),
          buildMRef fuel data = .error e → Flatten fuel data = .error e)
      ∧ (∀ (fuel : Nat) (data : List Token) (mref : Mref) (els : List element) (e : String),
          buildMRef fuel data = .ok mref → elements data = .ok els →
          flattenAccum (fun el => flattenXML fuel el mref) els = .error e →
          Flatten fuel data = .error e)
      ∧ (∀ (fuel : Nat) (el : element) (mref : Mref) (e : String),
          elements el.Data = .error e → ¬ el.Name.Local = "multiRef" →
          findHref el.Attr = none →
          flattenXML (fuel + 1) el mref = .ok (marshal el))
      ∧ (∀ (fuel : Nat) (el : element) (m : Mref) (e : String),
          elements el.Data = .error e → findId el.Attr = none →
          walkMultiRef (fuel + 1) el m = .ok m) := by
  refine ⟨fun fuel data e h => by simp [Flatten, buildMRef, h],
          fun fuel data e h => by simp [Flatten, h],
          fun fuel data mref els e h1 h2 h3 => by simp [Flatten, h1, h2, h3],
          fun fuel el mref e h hn hh => ?_,
          fun fuel el m e h hi => ?_⟩
  · rw [flattenXML, if_neg hn, substHref_of_none _ _ hh, flattenBody]
    have hc : Children el = [] := by simp [Children, h]
    simp [hc]
  · rw [walkMultiRef]
    have hc : Children el = [] := by simp [Children, h]
    simp [hc, walkAccum, hi]

/-- Witness for C9 at concrete inputs. -/
theorem C9_witness :
    Flatten 5 mismatchDoc = .error "Unexpected end element b"
      ∧ flattenXML (4 + 1) badEl [] = .ok (marshal badEl)
      ∧ walkMultiRef (4 + 1) badEl [] = .ok [] :=
  ⟨C9_error_propagation.1 5 mismatchDoc "Unexpected end element b" rfl,
   C9_error_propagation.2.2.2.1 4 badEl [] eofError rfl (by decide) rfl,
   C9_error_propagation.2.2.2.2 4 badEl [] eofError rfl rfl⟩

/-- Claim C10: every request built by `NewRequest` has method POST, a
`SOAPAction` header that is present but empty, the `text/xml` content type,
and the UTF-8 charset header. -/
theorem C10_request_headers :
    ∀ url : String,
      (NewRequest url).Method = "POST"
        ∧ List.lookup "SOAPAction" (NewRequest url).Header = some ""
        ∧ List.lookup "Content-Type" (NewRequest url).Header = some "text/xml"
        ∧ List.lookup "charset" (NewRequest url).Header = some "utf-8" :=
  fun url => ⟨rfl, rfl, rfl, rfl⟩
